import Mathlib

/-!
Verification of the schedule-evaluation engine of JChristensen/dehumid
(src/Classes.h: struct Sched, class Timer; src/dehumid.ino: driver loop).

The engine holds an array of `Sched` entries (time-of-day `hhmm`, desired
output state), resolves the entry in effect for a query time, and invokes a
callback whenever the active entry changes.  `Timer::run`, `Timer::toggle`
and the constructor are embedded directly from src/Classes.h.  The revision
of Classes.h carrying the manual/automatic mode (`m_mode`, `toggleMode`) is
not under src/ — only its caller `dehumid.ino` (which calls
`timer.toggleMode()`) is — so the mode-dependent behaviour is modelled from
the spec, and is marked as such on each definition.

Callbacks are made observable by returning the list of values the engine
passed to the callback during a call (in order), alongside the return value
and the post state.
-/

namespace Dehumid

/-- Embeds `struct Sched` (src/Classes.h lines 12-16): a schedule entry,
`schedTime` of the form hhmm, `schedState` the desired output. -/
structure Sched where
  schedTime : Int
  schedState : Bool
  deriving DecidableEq, Repr

instance : Inhabited Sched := ⟨⟨0, false⟩⟩

/-- The engine's mode. The mode-bearing revision of Classes.h is not under
src/; the spec (§3) gives the two modes AUTOMATIC and MANUAL. -/
inductive Mode where
  | automatic
  | manual
  deriving DecidableEq, Repr

/-- The mutable state of a `Timer` (src/Classes.h lines 32-39): `m_curSched`
is the index of the current schedule (-1 = sentinel, none yet), `m_state`
the current output.  `m_mode` is modelled from the spec (§3 EngineState):
the mode member is in the revision of Classes.h missing from src/. -/
structure TimerState where
  m_curSched : Int
  m_state : Bool
  m_mode : Mode
  deriving DecidableEq, Repr

/-- The schedule-array invariant (src/Classes.h lines 6-7: "must be in
ascending order by time"): non-decreasing by `schedTime`. -/
def schedSorted (sched : List Sched) : Prop :=
  List.Pairwise (fun a b => a.schedTime ≤ b.schedTime) sched

instance (sched : List Sched) : Decidable (schedSorted sched) :=
  inferInstanceAs (Decidable (List.Pairwise _ sched))

/-- Embeds `Timer::convertTime` (src/Classes.h line 41): convert an epoch
second count to an integer hhmm, `hour(t)*100 + minute(t)`. -/
def convertTime (epoch : Nat) : Int :=
  ((epoch % 86400) / 3600) * 100 + ((epoch % 3600) / 60)

/-- Embeds the reverse scan of `Timer::run` (src/Classes.h lines 60-65):
`for (int s = start; s >= 0; --s) if (t >= sched[s].schedTime) return s;`.
`none` models falling through the loop with `curSched` never assigned
(an uninitialized read in the C++). -/
def findSchedFrom (sched : List Sched) (t : Int) : Nat → Option Nat
  | 0 => if t ≥ (sched.getD 0 default).schedTime then some 0 else none
  | s + 1 =>
    if t ≥ (sched.getD (s + 1) default).schedTime then some (s + 1)
    else findSchedFrom sched t s

/-- Embeds the schedule-resolution step of `Timer::run` (src/Classes.h
lines 49-66): if `t < sched[0].schedTime` or `t >= sched[n-1].schedTime`
the last schedule is in effect, else scan in reverse from index `n-2`. -/
def resolve (sched : List Sched) (t : Int) : Option Nat :=
  if t < (sched.getD 0 default).schedTime ∨
      t ≥ (sched.getD (sched.length - 1) default).schedTime then
    some (sched.length - 1)
  else
    findSchedFrom sched t (sched.length - 2)

/-- Embeds the compare-and-notify step of `Timer::run` (src/Classes.h
lines 70-76): if the resolved index differs from `m_curSched`, update
`m_curSched` and `m_state` and invoke the callback with the new state;
return `m_state`.  Result: (return value, post state, callback values). -/
def runAuto (sched : List Sched) (st : TimerState) (t : Int) :
    Option (Bool × TimerState × List Bool) :=
  match resolve sched t with
  | none => none
  | some curSched =>
    if (curSched : Int) ≠ st.m_curSched then
      let s := (sched.getD curSched default).schedState
      some (s, { st with m_curSched := (curSched : Int), m_state := s }, [s])
    else
      some (st.m_state, st, [])

/-- Modelled from the spec: the mode-aware `Timer::run`.  The revision of
Classes.h with `m_mode`/`toggleMode` is missing from src/ (dehumid.ino
line 147 calls `timer.toggleMode()`); per spec §4.1, `evaluate` in MANUAL
mode performs the lookup for bookkeeping only and neither changes
`current_output` nor invokes the callback; in AUTOMATIC mode it behaves as
`runAuto`, the src Timer::run. -/
def run (sched : List Sched) (st : TimerState) (t : Int) :
    Option (Bool × TimerState × List Bool) :=
  if st.m_mode = Mode.manual then
    match resolve sched t with
    | none => none
    | some _ => some (st.m_state, st, [])
  else
    runAuto sched st t

/-- Embeds `Timer::toggle` (src/Classes.h lines 81-87): negate `m_state`,
invoke the callback with the new state, return it. -/
def toggle (st : TimerState) : Bool × TimerState × List Bool :=
  ((!st.m_state), { st with m_state := !st.m_state }, [!st.m_state])

/-- Modelled from the spec: `Timer::toggleMode`, called from dehumid.ino
line 147 but absent from src/Classes.h.  Spec §4.1: flips the mode; the
AUTOMATIC→MANUAL transition forces `current_output` to false and invokes
the callback with false, unconditionally; MANUAL→AUTOMATIC only flips the
mode (the caller must immediately follow with `evaluate`); returns the
"is now manual" flag (dehumid.ino drives the MANUAL led with it). -/
def toggleMode (st : TimerState) : Bool × TimerState × List Bool :=
  match st.m_mode with
  | Mode.automatic =>
    (true, { st with m_mode := Mode.manual, m_state := false }, [false])
  | Mode.manual =>
    (false, { st with m_mode := Mode.automatic }, [])

/-- Embeds the `Timer` constructor and member initializers (src/Classes.h
lines 26-27, 35-38): `m_curSched` starts at -1 (the sentinel that forces a
callback on the first `run`); `m_state` is never initialized, modelled by
the parameter `b`; the mode starts AUTOMATIC (spec §3 lifecycle). -/
def init (b : Bool) : TimerState :=
  { m_curSched := -1, m_state := b, m_mode := Mode.automatic }

/-- Folds `run` over a list of query times, accumulating every callback
value delivered along the trace. -/
def runTrace (sched : List Sched) (st : TimerState) :
    List Int → Option (TimerState × List Bool)
  | [] => some (st, [])
  | t :: ts =>
    match run sched st t with
    | none => none
    | some (_, st1, cbs) =>
      match runTrace sched st1 ts with
      | none => none
      | some (st2, cbs2) => some (st2, cbs ++ cbs2)

/-- Scans indices `k-1, k-2, …, 0` for the greatest index `i` with
`sched[i].schedTime ≤ t`.  Spec-side helper for the resolution rule. -/
def greatestLEFrom (sched : List Sched) (t : Int) : Nat → Option Nat
  | 0 => none
  | k + 1 =>
    if (sched.getD k default).schedTime ≤ t then some k
    else greatestLEFrom sched t k

/-- The greatest index `i` with `sched[i].schedTime ≤ t`, if any. -/
def greatestLE (sched : List Sched) (t : Int) : Option Nat :=
  greatestLEFrom sched t sched.length

/-- Modelled from the spec (the refinement target for the resolution rule,
spec §4.1): "find the greatest index i such that schedule[i].time_of_day <=
query; if no such index exists, select the last index." -/
def specResolve (sched : List Sched) (t : Int) : Nat :=
  match greatestLE sched t with
  | some i => i
  | none => sched.length - 1

/-- Construction error of the spec's strengthened contract (spec §7). -/
inductive ConstructionError where
  | InvalidSchedule
  deriving DecidableEq, Repr

/-- Modelled from the spec: construction validation (spec §7, "fail fast").
The src constructor (src/Classes.h lines 26-27) does no checking; the
spec's strengthened contract rejects an empty schedule and a schedule not
sorted non-decreasingly by time. -/
def construct (sched : List Sched) : Except ConstructionError (List Sched) :=
  if sched = [] then Except.error ConstructionError.InvalidSchedule
  else if schedSorted sched then Except.ok sched
  else Except.error ConstructionError.InvalidSchedule

/-- The schedule of the reference deployment (src/dehumid.ino line 28):
`Sched sched[] {{1400, 0}, {1900, 1}}`. -/
def exSched : List Sched := [⟨1400, false⟩, ⟨1900, true⟩]

/-- Out-of-order schedule used by spec §8 P8. -/
def badSched : List Sched := [⟨1900, true⟩, ⟨1400, false⟩]

/-- Tie schedule used by spec §8 P7. -/
def tieSched : List Sched := [⟨1000, false⟩, ⟨1000, true⟩]

/-! ### Helper lemmas about the resolution scan -/

lemma greatestLEFrom_succ (sched : List Sched) (t : Int) (m : Nat) :
    greatestLEFrom sched t (m + 1) =
      if (sched.getD m default).schedTime ≤ t then some m
      else greatestLEFrom sched t m := rfl

lemma findSchedFrom_eq_greatestLEFrom (sched : List Sched) (t : Int) :
    ∀ k, findSchedFrom sched t k = greatestLEFrom sched t (k + 1) := by
  intro k
  induction k with
  | zero => simp [findSchedFrom, greatestLEFrom, ge_iff_le]
  | succ s ih => simp [findSchedFrom, greatestLEFrom, ge_iff_le, ih]

lemma greatestLEFrom_none_iff (sched : List Sched) (t : Int) :
    ∀ k, greatestLEFrom sched t k = none ↔
      ∀ j, j < k → ¬ (sched.getD j default).schedTime ≤ t := by
  intro k
  induction k with
  | zero => simp [greatestLEFrom]
  | succ m ih =>
    by_cases h : (sched.getD m default).schedTime ≤ t
    · simp only [greatestLEFrom, if_pos h]
      constructor
      · intro hc; exact absurd hc (by simp)
      · intro hall; exact absurd h (hall m (Nat.lt_succ_self m))
    · simp only [greatestLEFrom, if_neg h, ih]
      constructor
      · intro hall j hj
        rcases Nat.lt_succ_iff_lt_or_eq.mp hj with hj' | hj'
        · exact hall j hj'
        · subst hj'; exact h
      · intro hall j hj; exact hall j (Nat.lt_succ_of_lt hj)

lemma greatestLEFrom_some (sched : List Sched) (t : Int) :
    ∀ k i, greatestLEFrom sched t k = some i →
      i < k ∧ (sched.getD i default).schedTime ≤ t ∧
        ∀ j, i < j → j < k → ¬ (sched.getD j default).schedTime ≤ t := by
  intro k
  induction k with
  | zero => intro i h; simp [greatestLEFrom] at h
  | succ m ih =>
    intro i h
    by_cases hm : (sched.getD m default).schedTime ≤ t
    · simp only [greatestLEFrom, if_pos hm, Option.some.injEq] at h
      subst h
      refine ⟨Nat.lt_succ_self m, hm, ?_⟩
      intro j hj hj'
      exact absurd (Nat.lt_of_lt_of_le hj (Nat.lt_succ_iff.mp hj')) (Nat.lt_irrefl m)
    · simp only [greatestLEFrom, if_neg hm] at h
      obtain ⟨hik, hle, hmax⟩ := ih i h
      refine ⟨Nat.lt_succ_of_lt hik, hle, ?_⟩
      intro j hj hj'
      rcases Nat.lt_succ_iff_lt_or_eq.mp hj' with hj'' | hj''
      · exact hmax j hj hj''
      · subst hj''; exact hm

lemma sorted_getD_mono (sched : List Sched) (hs : schedSorted sched)
    {i j : Nat} (hij : i ≤ j) (hj : j < sched.length) :
    (sched.getD i default).schedTime ≤ (sched.getD j default).schedTime := by
  rcases Nat.lt_or_ge i j with hlt | hge
  · have hi : i < sched.length := Nat.lt_trans hlt hj
    rw [List.getD_eq_getElem sched default hi, List.getD_eq_getElem sched default hj]
    have := (List.pairwise_iff_get.mp hs) ⟨i, hi⟩ ⟨j, hj⟩ hlt
    simpa [List.get_eq_getElem] using this
  · have : i = j := Nat.le_antisymm hij hge
    subst this
    exact le_refl _

lemma resolve_isSome (sched : List Sched) (t : Int) (hne : sched ≠ []) :
    ∃ r, resolve sched t = some r ∧ r < sched.length := by
  have hn : 0 < sched.length := List.length_pos.mpr hne
  unfold resolve
  by_cases hc : t < (sched.getD 0 default).schedTime ∨
      t ≥ (sched.getD (sched.length - 1) default).schedTime
  · exact ⟨sched.length - 1, by rw [if_pos hc], Nat.sub_lt hn Nat.one_pos⟩
  · rw [if_neg hc]
    push_neg at hc
    obtain ⟨h0, hlast⟩ := hc
    -- the last entry is strictly later than t, the first is ≤ t, so n ≥ 2
    have hne01 : sched.length - 1 ≠ 0 := by
      intro h
      rw [h] at hlast
      exact absurd h0 (not_le.mpr hlast)
    have h2 : 2 ≤ sched.length := by omega
    have hk : sched.length - 2 + 1 = sched.length - 1 := by omega
    rw [findSchedFrom_eq_greatestLEFrom, hk]
    cases hg : greatestLEFrom sched t (sched.length - 1) with
    | none =>
      have := (greatestLEFrom_none_iff sched t (sched.length - 1)).mp hg 0 (by omega)
      exact absurd h0 this
    | some i =>
      obtain ⟨hik, _, _⟩ := greatestLEFrom_some sched t _ _ hg
      exact ⟨i, rfl, by omega⟩

lemma resolve_eq_spec (sched : List Sched) (t : Int)
    (hne : sched ≠ []) (hs : schedSorted sched) :
    resolve sched t = some (specResolve sched t) := by
  have hn : 0 < sched.length := List.length_pos.mpr hne
  have hsucc : sched.length - 1 + 1 = sched.length := Nat.succ_pred_eq_of_pos hn
  unfold resolve specResolve greatestLE
  by_cases hc : t < (sched.getD 0 default).schedTime ∨
      t ≥ (sched.getD (sched.length - 1) default).schedTime
  · rw [if_pos hc]
    rcases hc with hlo | hhi
    · -- t is below every entry: no index qualifies
      have hnone : greatestLEFrom sched t sched.length = none := by
        rw [greatestLEFrom_none_iff]
        intro j hj hle
        have := sorted_getD_mono sched hs (Nat.zero_le j) hj
        omega
      rw [hnone]
    · -- t ≥ last entry's time: the last index qualifies and is greatest
      have : greatestLEFrom sched t (sched.length - 1 + 1) = some (sched.length - 1) := by
        rw [greatestLEFrom_succ, if_pos hhi]
      rw [hsucc] at this
      rw [this]
  · rw [if_neg hc]
    push_neg at hc
    obtain ⟨h0, hlast⟩ := hc
    have hne01 : sched.length - 1 ≠ 0 := by
      intro h
      rw [h] at hlast
      exact absurd h0 (not_le.mpr hlast)
    have h2 : 2 ≤ sched.length := by omega
    have hk : sched.length - 2 + 1 = sched.length - 1 := by omega
    rw [findSchedFrom_eq_greatestLEFrom, hk]
    -- the outer check at index n-1 fails, so the full scan equals the scan from n-1
    have hstep : greatestLEFrom sched t (sched.length - 1 + 1) =
        greatestLEFrom sched t (sched.length - 1) := by
      rw [greatestLEFrom_succ, if_neg (not_le.mpr hlast)]
    rw [hsucc] at hstep
    rw [hstep]
    cases hg : greatestLEFrom sched t (sched.length - 1) with
    | none =>
      have := (greatestLEFrom_none_iff sched t (sched.length - 1)).mp hg 0 (by omega)
      exact absurd h0 this
    | some i => rfl

lemma run_manual (sched : List Sched) (st : TimerState) (t : Int)
    (hne : sched ≠ []) (hm : st.m_mode = Mode.manual) :
    run sched st t = some (st.m_state, st, []) := by
  obtain ⟨r, hr, _⟩ := resolve_isSome sched t hne
  simp [run, hm, hr]

/-! ### The claims -/

/-- C1: for every non-empty schedule sorted non-decreasingly by `schedTime`
and every query time t in [0, 2359], the resolution step of `Timer::run`
resolves the active entry exactly as the spec's rule states (`specResolve`):
the greatest index i with `schedule[i].time_of_day ≤ t`, and the last index
when no such index exists; t ≥ the last entry's time also yields the last
index, since the last index is then the greatest qualifying one. -/
theorem C1_resolution_rule (sched : List Sched) (t : Int)
    (hne : sched ≠ []) (hs : schedSorted sched)
    (hlo : 0 ≤ t) (hhi : t ≤ 2359) :
    resolve sched t = some (specResolve sched t) :=
  resolve_eq_spec sched t hne hs

/-- Witness for C1: the reference schedule [(1400,false),(1900,true)] at
t = 1400, together with the claim's enumerated examples. -/
theorem C1_resolution_rule_witness :
    (exSched ≠ [] ∧ schedSorted exSched ∧ (0:Int) ≤ 1400 ∧ (1400:Int) ≤ 2359 ∧
      resolve exSched 1400 = some (specResolve exSched 1400)) ∧
    resolve exSched 0 = some 1 ∧ resolve exSched 1400 = some 0 ∧
    resolve exSched 1859 = some 0 ∧ resolve exSched 1900 = some 1 ∧
    resolve exSched 2359 = some 1 :=
  ⟨⟨by decide, by decide, by decide, by decide,
    C1_resolution_rule exSched 1400 (by decide) (by decide) (by decide) (by decide)⟩,
   by decide, by decide, by decide, by decide, by decide⟩

/-- C2: in AUTOMATIC mode, when the resolved index differs from
`m_curSched` (the sentinel -1 included, as a Nat index never equals -1),
`run` updates `m_curSched`, sets `m_state` to the resolved entry's
`schedState`, invokes the callback exactly once with that value — the
singleton callback list, delivered before the call returns — and returns
it; when the resolved index equals `m_curSched`, no callback fires and the
state is unchanged.  Either way the call returns the current `m_state` and
makes at most one callback. -/
theorem C2_automatic_transition (sched : List Sched) (st : TimerState) (t : Int)
    (hne : sched ≠ []) (hm : st.m_mode = Mode.automatic) :
    ∃ r, resolve sched t = some r ∧
      (((r : Int) ≠ st.m_curSched →
        run sched st t = some ((sched.getD r default).schedState,
          { st with m_curSched := (r : Int),
                    m_state := (sched.getD r default).schedState },
          [(sched.getD r default).schedState])) ∧
      ((r : Int) = st.m_curSched →
        run sched st t = some (st.m_state, st, []))) := by
  obtain ⟨r, hr, _⟩ := resolve_isSome sched t hne
  refine ⟨r, hr, ?_, ?_⟩
  · intro hd
    simp [run, hm, runAuto, hr, hd]
  · intro heq
    simp [run, hm, runAuto, hr, heq]

/-- Witness for C2: the reference schedule, the freshly constructed state
(sentinel index -1, AUTOMATIC) and t = 1400; the resolved index 0 differs
from -1, so the callback fires once with false. -/
theorem C2_automatic_transition_witness :
    (exSched ≠ [] ∧ (init false).m_mode = Mode.automatic) ∧
    (∃ r, resolve exSched 1400 = some r ∧
      (((r : Int) ≠ (init false).m_curSched →
        run exSched (init false) 1400 = some ((exSched.getD r default).schedState,
          { init false with m_curSched := (r : Int),
                            m_state := (exSched.getD r default).schedState },
          [(exSched.getD r default).schedState])) ∧
      ((r : Int) = (init false).m_curSched →
        run exSched (init false) 1400 = some ((init false).m_state, init false, [])))) :=
  ⟨⟨by decide, rfl⟩,
   C2_automatic_transition exSched (init false) 1400 (by decide) rfl⟩

lemma runTrace_manual (sched : List Sched) (st : TimerState) (ts : List Int)
    (hne : sched ≠ []) (hm : st.m_mode = Mode.manual) :
    runTrace sched st ts = some (st, []) := by
  induction ts with
  | nil => rfl
  | cons t ts ih => simp [runTrace, run_manual sched st t hne hm, ih]

/-- C3: after `toggleMode` moves the engine from AUTOMATIC to MANUAL, every
subsequent `run` — over any sequence of query times — invokes no callback
and leaves the whole state, `m_state` in particular, unchanged: automatic
schedule changes are suppressed in manual mode. -/
theorem C3_manual_suppression (sched : List Sched) (st : TimerState)
    (ts : List Int) (hne : sched ≠ []) (hm : st.m_mode = Mode.automatic) :
    (toggleMode st).2.1.m_mode = Mode.manual ∧
    runTrace sched (toggleMode st).2.1 ts = some ((toggleMode st).2.1, []) := by
  have hmm : (toggleMode st).2.1.m_mode = Mode.manual := by
    simp [toggleMode, hm]
  exact ⟨hmm, runTrace_manual sched _ ts hne hmm⟩

/-- Witness for C3: the reference schedule, an AUTOMATIC state with the
output on, and the query times 0, 1400, 1900 after entering MANUAL. -/
theorem C3_manual_suppression_witness :
    (exSched ≠ [] ∧ (⟨0, true, Mode.automatic⟩ : TimerState).m_mode = Mode.automatic) ∧
    ((toggleMode ⟨0, true, Mode.automatic⟩).2.1.m_mode = Mode.manual ∧
     runTrace exSched (toggleMode ⟨0, true, Mode.automatic⟩).2.1 [0, 1400, 1900] =
       some ((toggleMode ⟨0, true, Mode.automatic⟩).2.1, [])) :=
  ⟨⟨by decide, rfl⟩,
   C3_manual_suppression exSched ⟨0, true, Mode.automatic⟩ [0, 1400, 1900]
     (by decide) rfl⟩

/-- C4: `toggleMode` on an AUTOMATIC state always moves to MANUAL, forces
`m_state` to false, invokes the callback exactly once with false, and
returns the is-now-manual flag — unconditionally, with no case split on the
previous `m_state`. -/
theorem C4_manual_entry_forces_off (st : TimerState)
    (hm : st.m_mode = Mode.automatic) :
    toggleMode st =
      (true, { st with m_mode := Mode.manual, m_state := false }, [false]) := by
  simp [toggleMode, hm]

/-- Witness for C4: a state whose output is already false still gets the
forced-off callback. -/
theorem C4_manual_entry_forces_off_witness :
    (⟨0, false, Mode.automatic⟩ : TimerState).m_mode = Mode.automatic ∧
    toggleMode ⟨0, false, Mode.automatic⟩ =
      (true, { (⟨0, false, Mode.automatic⟩ : TimerState) with
                m_mode := Mode.manual, m_state := false }, [false]) :=
  ⟨rfl, C4_manual_entry_forces_off ⟨0, false, Mode.automatic⟩ rfl⟩

/-- C5: `toggle` negates `m_state`, invokes the callback exactly once with
the new value, returns it, and leaves `m_curSched` (and the mode)
unchanged; consequently, in AUTOMATIC mode a subsequent `run` whose
resolved index equals the unchanged `m_curSched` keeps the overridden
output and fires no callback, while a `run` resolving a different index
puts the schedule back in control. -/
theorem C5_override_frame (sched : List Sched) (st : TimerState) (t : Int)
    (hne : sched ≠ []) :
    toggle st = ((!st.m_state), { st with m_state := !st.m_state },
      [!st.m_state]) ∧
    (toggle st).2.1.m_curSched = st.m_curSched ∧
    (st.m_mode = Mode.automatic →
      ∀ r, resolve sched t = some r →
        (((r : Int) = st.m_curSched →
          run sched (toggle st).2.1 t =
            some ((!st.m_state), (toggle st).2.1, [])) ∧
         ((r : Int) ≠ st.m_curSched →
          run sched (toggle st).2.1 t =
            some ((sched.getD r default).schedState,
              { (toggle st).2.1 with
                  m_curSched := (r : Int),
                  m_state := (sched.getD r default).schedState },
              [(sched.getD r default).schedState])))) := by
  refine ⟨rfl, rfl, ?_⟩
  intro hm r hr
  constructor
  · intro heq
    simp [toggle, run, hm, runAuto, hr, heq]
  · intro hd
    simp [toggle, run, hm, runAuto, hr, hd]

/-- Witness for C5: spec §8 P6 — reference schedule, AUTOMATIC, active
index 0, output false at t = 1500; after `toggle` the output is true and
`run` at t = 1600 (still resolving index 0) does not revert it. -/
theorem C5_override_frame_witness :
    exSched ≠ [] ∧
    (toggle ⟨0, false, Mode.automatic⟩ =
      ((!(false : Bool)),
        { (⟨0, false, Mode.automatic⟩ : TimerState) with m_state := !(false : Bool) },
        [!(false : Bool)]) ∧
     (toggle ⟨0, false, Mode.automatic⟩).2.1.m_curSched =
       (⟨0, false, Mode.automatic⟩ : TimerState).m_curSched ∧
     ((⟨0, false, Mode.automatic⟩ : TimerState).m_mode = Mode.automatic →
       ∀ r, resolve exSched 1600 = some r →
         (((r : Int) = (⟨0, false, Mode.automatic⟩ : TimerState).m_curSched →
           run exSched (toggle ⟨0, false, Mode.automatic⟩).2.1 1600 =
             some ((!(false : Bool)), (toggle ⟨0, false, Mode.automatic⟩).2.1, [])) ∧
          ((r : Int) ≠ (⟨0, false, Mode.automatic⟩ : TimerState).m_curSched →
           run exSched (toggle ⟨0, false, Mode.automatic⟩).2.1 1600 =
             some ((exSched.getD r default).schedState,
               { (toggle ⟨0, false, Mode.automatic⟩).2.1 with
                   m_curSched := (r : Int),
                   m_state := (exSched.getD r default).schedState },
               [(exSched.getD r default).schedState]))))) :=
  ⟨by decide, C5_override_frame exSched ⟨0, false, Mode.automatic⟩ 1600 (by decide)⟩

/-- C6: the very first `run` after construction always invokes the callback
exactly once, whatever entry resolves and whatever the uninitialized
`m_state` held: `m_curSched` starts at the sentinel -1, which no resolved
Nat index can equal. -/
theorem C6_initial_callback (sched : List Sched) (b : Bool) (t : Int)
    (hne : sched ≠ []) (hs : schedSorted sched) :
    ∃ r, resolve sched t = some r ∧
      run sched (init b) t =
        some ((sched.getD r default).schedState,
          { m_curSched := (r : Int),
            m_state := (sched.getD r default).schedState,
            m_mode := Mode.automatic },
          [(sched.getD r default).schedState]) := by
  obtain ⟨r, hr, _⟩ := resolve_isSome sched t hne
  have hd : (r : Int) ≠ (init b).m_curSched := by
    simp only [init]
    omega
  refine ⟨r, hr, ?_⟩
  simp [run, init, runAuto, hr, hd]

/-- Witness for C6: reference schedule, uninitialized state modelled true,
first query at t = 0 resolving the last entry; one callback with true. -/
theorem C6_initial_callback_witness :
    (exSched ≠ [] ∧ schedSorted exSched) ∧
    (∃ r, resolve exSched 0 = some r ∧
      run exSched (init true) 0 =
        some ((exSched.getD r default).schedState,
          { m_curSched := (r : Int),
            m_state := (exSched.getD r default).schedState,
            m_mode := Mode.automatic },
          [(exSched.getD r default).schedState])) :=
  ⟨⟨by decide, by decide⟩, C6_initial_callback exSched true 0 (by decide) (by decide)⟩

/-- C7: under the spec's strengthened contract, constructing with an empty
schedule or with one not sorted non-decreasingly by time is rejected with
the `InvalidSchedule` construction error. -/
theorem C7_construction_rejects (sched : List Sched)
    (h : sched = [] ∨ ¬ schedSorted sched) :
    construct sched = Except.error ConstructionError.InvalidSchedule := by
  rcases h with h | h
  · simp [construct, h]
  · rcases eq_or_ne sched [] with he | he
    · simp [construct, he]
    · simp [construct, he, h]

/-- Witness for C7: the empty schedule and the out-of-order schedule
[(1900,true),(1400,false)] of spec §8 P8 are both rejected. -/
theorem C7_construction_rejects_witness :
    (([] : List Sched) = [] ∨ ¬ schedSorted ([] : List Sched)) ∧
    construct [] = Except.error ConstructionError.InvalidSchedule ∧
    (badSched = [] ∨ ¬ schedSorted badSched) ∧
    construct badSched = Except.error ConstructionError.InvalidSchedule :=
  ⟨Or.inl rfl, C7_construction_rejects [] (Or.inl rfl),
   Or.inr (by decide), C7_construction_rejects badSched (Or.inr (by decide))⟩

/-- C8: the resolved index is always the highest-indexed among the entries
sharing its `schedTime`: any index j whose entry carries the same time as
the resolved entry satisfies j ≤ r. -/
theorem C8_tie_break (sched : List Sched) (t : Int)
    (hne : sched ≠ []) (hs : schedSorted sched) :
    ∃ r, resolve sched t = some r ∧ r < sched.length ∧
      ∀ j, j < sched.length →
        (sched.getD j default).schedTime = (sched.getD r default).schedTime →
        j ≤ r := by
  have hr := resolve_eq_spec sched t hne hs
  have hn : 0 < sched.length := List.length_pos.mpr hne
  cases hg : greatestLE sched t with
  | none =>
    refine ⟨specResolve sched t, hr, ?_, ?_⟩
    · simp only [specResolve, hg]
      omega
    · intro j hj _
      simp only [specResolve, hg]
      omega
  | some i =>
    obtain ⟨hik, hile, hmax⟩ :=
      greatestLEFrom_some sched t sched.length i (by simpa [greatestLE] using hg)
    refine ⟨specResolve sched t, hr, ?_, ?_⟩
    · simpa only [specResolve, hg] using hik
    · intro j hj heq
      simp only [specResolve, hg] at heq ⊢
      by_contra hlt
      push_neg at hlt
      exact hmax j hlt hj (heq ▸ hile)

/-- Witness for C8: spec §8 P7 — schedule [(1000,false),(1000,true)] at
t = 1000 resolves to index 1, the last entry sharing that time. -/
theorem C8_tie_break_witness :
    (tieSched ≠ [] ∧ schedSorted tieSched) ∧
    (∃ r, resolve tieSched 1000 = some r ∧ r < tieSched.length ∧
      ∀ j, j < tieSched.length →
        (tieSched.getD j default).schedTime = (tieSched.getD r default).schedTime →
        j ≤ r) ∧
    resolve tieSched 1000 = some 1 :=
  ⟨⟨by decide, by decide⟩,
   C8_tie_break tieSched 1000 (by decide) (by decide),
   by decide⟩

/-- C9: `run` is idempotent for a fixed schedule, mode and time: the first
call yields output o1, post state st1 and at most one callback; the second,
immediately repeated call yields the same output, leaves st1 unchanged and
fires no callback. -/
theorem C9_idempotent (sched : List Sched) (st : TimerState) (t : Int)
    (hne : sched ≠ []) :
    ∃ o1 st1 c1, run sched st t = some (o1, st1, c1) ∧
      run sched st1 t = some (o1, st1, []) ∧ c1.length ≤ 1 := by
  obtain ⟨r, hr, _⟩ := resolve_isSome sched t hne
  cases hmo : st.m_mode with
  | manual =>
    exact ⟨st.m_state, st, [], run_manual sched st t hne hmo,
      run_manual sched st t hne hmo, by simp⟩
  | automatic =>
    by_cases hd : (r : Int) = st.m_curSched
    · refine ⟨st.m_state, st, [], ?_, ?_, by simp⟩
      all_goals simp [run, hmo, runAuto, hr, hd]
    · refine ⟨(sched.getD r default).schedState,
        { st with m_curSched := (r : Int),
                  m_state := (sched.getD r default).schedState },
        [(sched.getD r default).schedState], ?_, ?_, by simp⟩
      · simp [run, hmo, runAuto, hr, hd]
      · simp [run, hmo, runAuto, hr]

/-- Witness for C9: reference schedule, freshly constructed state,
t = 1400: the first call fires one callback, the repeat fires none. -/
theorem C9_idempotent_witness :
    exSched ≠ [] ∧
    (∃ o1 st1 c1, run exSched (init false) 1400 = some (o1, st1, c1) ∧
      run exSched st1 1400 = some (o1, st1, []) ∧ c1.length ≤ 1) :=
  ⟨by decide, C9_idempotent exSched (init false) 1400 (by decide)⟩

/-- C10: for a non-empty sorted schedule and t in [0, 2359], the resolution
step always produces an index — the local `curSched` is assigned before it
is read, `none` never arises — and that index is a valid schedule index;
after an AUTOMATIC `run`, `m_curSched` equals it, so `m_curSched` is in
[0, nsched-1] and never the sentinel -1 again. -/
theorem C10_index_safety (sched : List Sched) (st : TimerState) (t : Int)
    (hne : sched ≠ []) (hs : schedSorted sched) (hlo : 0 ≤ t) (hhi : t ≤ 2359)
    (hm : st.m_mode = Mode.automatic) :
    ∃ r, resolve sched t = some r ∧ r < sched.length ∧
      ∃ o st' c, run sched st t = some (o, st', c) ∧
        st'.m_curSched = (r : Int) ∧ 0 ≤ st'.m_curSched ∧
        st'.m_curSched < (sched.length : Int) := by
  obtain ⟨r, hr, hrlt⟩ := resolve_isSome sched t hne
  refine ⟨r, hr, hrlt, ?_⟩
  by_cases hd : (r : Int) = st.m_curSched
  · refine ⟨st.m_state, st, [], ?_, hd.symm, ?_, ?_⟩
    · simp [run, hm, runAuto, hr, hd]
    · rw [← hd]
      exact Int.natCast_nonneg r
    · rw [← hd]
      exact_mod_cast hrlt
  · refine ⟨(sched.getD r default).schedState,
      { st with m_curSched := (r : Int),
                m_state := (sched.getD r default).schedState },
      [(sched.getD r default).schedState], ?_, rfl, ?_, ?_⟩
    · simp [run, hm, runAuto, hr, hd]
    · exact Int.natCast_nonneg r
    · show (r : Int) < (sched.length : Int)
      exact_mod_cast hrlt

/-- Witness for C10: reference schedule, freshly constructed state,
t = 1900; the resolved index 1 lands in `m_curSched`. -/
theorem C10_index_safety_witness :
    (exSched ≠ [] ∧ schedSorted exSched ∧ (0:Int) ≤ 1900 ∧ (1900:Int) ≤ 2359 ∧
      (init false).m_mode = Mode.automatic) ∧
    (∃ r, resolve exSched 1900 = some r ∧ r < exSched.length ∧
      ∃ o st' c, run exSched (init false) 1900 = some (o, st', c) ∧
        st'.m_curSched = (r : Int) ∧ 0 ≤ st'.m_curSched ∧
        st'.m_curSched < (exSched.length : Int)) :=
  ⟨⟨by decide, by decide, by decide, by decide, rfl⟩,
   C10_index_safety exSched (init false) 1900 (by decide) (by decide)
     (by decide) (by decide) rfl⟩

end Dehumid
